import Mathlib

/-!
# Verification of the buscacursos scraper core

Shallow embedding of `src/scrapers/buscacursos.py` (and, where that module
imports helpers from the absent `src/scrapers/utils.py`, models of those
helpers taken from the specification, marked `Modelled from the spec:`).

Python strings are embedded as Lean `String`; Python `str.split(sep)` with a
non-empty separator is embedded by `pySplit` below; Python functions that can
raise (`ValueError` from tuple unpacking or `int()`) return `Option`.
-/

namespace BuscaCursos

/-- Embedding of Python `str.split(sep)` (non-empty `sep`) on character lists:
splits on every non-overlapping occurrence of `sep`, scanning left to right,
keeping empty pieces; the result always has at least one element. Structural
recursion on a fuel argument so that the kernel can evaluate it; every step
consumes at least one character, so fuel equal to the list length (as passed
by `splitSeq`) always suffices and the fuel-exhaustion arm is unreachable. -/
def splitSeqAux (sep : List Char) : Nat → List Char → List (List Char)
  | _, [] => [[]]
  | 0, l => [l]
  | fuel + 1, c :: cs =>
    if sep ≠ [] ∧ sep.isPrefixOf (c :: cs) then
      [] :: splitSeqAux sep fuel (List.drop sep.length (c :: cs))
    else
      match splitSeqAux sep fuel cs with
      | [] => [[c]]
      | h :: t => (c :: h) :: t

/-- Python `sep.split` on character lists, with adequate fuel. -/
def splitSeq (sep : List Char) (l : List Char) : List (List Char) :=
  splitSeqAux sep l.length l

/-- Python `s.split(sep)` for strings (non-empty `sep`). -/
def pySplit (sep : String) (s : String) : List String :=
  (splitSeq sep.toList s.toList).map (fun l => String.mk l)

/-- Python `sep.join(parts)`. -/
def pyJoin (sep : String) : List String → String
  | [] => ""
  | [a] => a
  | a :: b :: rest => a ++ sep ++ pyJoin sep (b :: rest)

/-- Python `s.strip()`: drop leading and trailing whitespace. -/
def pyStrip (s : String) : String :=
  String.mk
    (((s.toList.dropWhile Char.isWhitespace).reverse.dropWhile
        Char.isWhitespace).reverse)

/-- Python `s.upper()` (on the ASCII letters the parsed tokens use). -/
def pyUpper (s : String) : String :=
  String.mk (s.toList.map Char.toUpper)

/-- Test that `p` is a prefix of `s`; embeds Python `re.match` of a literal
pattern, which anchors at the start of the string only. -/
def pyStarts (p s : String) : Bool :=
  p.toList.isPrefixOf s.toList

/-- One expanded timetable slot, the dict built by `expand_schedule`
(line 46 of buscacursos.py): `classroom` is `None` when the source text
matched the to-be-assigned sentinel. -/
structure Session where
  classroom : Option String
  type : String
  module : String
deriving Repr, DecidableEq

/-- One compact (unexpanded) timetable row, the dict appended at line 60 of
buscacursos.py; here `classroom` is always the raw cell text. -/
structure CompactEntry where
  classroom : String
  type : String
  module : String
deriving Repr, DecidableEq

/-- The value returned by `parse_schedule` when a nested table exists. -/
structure Schedule where
  full : List Session
  compact : List CompactEntry
deriving Repr, DecidableEq

/-- Embedding of `MISSING_CLASSROM_RE.match(classroom)`: the regex
`\(?Por Asignar\(?` matched with Python `re.match`, i.e. anchored at the start
of the string only. It succeeds exactly when the text starts with
"Por Asignar", optionally preceded by one "(" (the trailing optional "(" of
the pattern imposes no constraint on a prefix match). -/
def matchesMissingClassroom (classroom : String) : Bool :=
  pyStarts "Por Asignar" classroom || pyStarts "(Por Asignar" classroom

/-- Embedding of `expand_schedule` (buscacursos.py lines 38-48).
`module_schedule.split(":")` is unpacked into exactly two names; Python raises
`ValueError` when the split does not have exactly two pieces, embedded as
`none`. An empty day part or hour part yields `some []`. -/
def expand_schedule (module_schedule module_type classroom : String) :
    Option (List Session) :=
  match pySplit ":" module_schedule with
  | [days_raw, hours_raw] =>
    if days_raw = "" ∨ hours_raw = "" then some []
    else
      let actual_classroom :=
        if matchesMissingClassroom classroom then none else some classroom
      some ((pySplit "-" days_raw).flatMap (fun d =>
        (pySplit "," hours_raw).map (fun h =>
          { classroom := actual_classroom, type := module_type,
            module := d ++ h })))
  | _ => none

/-- The unpacking `module_schedule, module_type, classroom, *_ = packed_data`
(buscacursos.py line 58): needs at least three cells, extra cells ignored;
fewer than three raises `ValueError`, embedded as `none`. -/
def unpack_row_cells (packed_data : List String) :
    Option (String × String × String) :=
  match packed_data with
  | a :: b :: c :: _ => some (a, b, c)
  | _ => none

/-- The expanded sessions one module row contributes, when its parse succeeds. -/
def rowExpansion (packed_data : List String) : Option (List Session) :=
  match unpack_row_cells packed_data with
  | none => none
  | some (ms, mt, cl) => expand_schedule ms mt cl

/-- The loop body of `parse_schedule` over the rows of the nested table
(buscacursos.py lines 56-61), with the Python exception flow made explicit:
any row whose unpacking or expansion raises aborts the whole loop (there is
no handler in `parse_schedule`), discarding all accumulated state. -/
def parse_schedule_rows :
    List (List String) → Option (List Session × List CompactEntry)
  | [] => some ([], [])
  | row :: rest =>
    match unpack_row_cells row with
    | none => none
    | some (ms, mt, cl) =>
      match expand_schedule ms mt cl with
      | none => none
      | some expanded =>
        match parse_schedule_rows rest with
        | none => none
        | some (f, c) =>
          some (expanded ++ f, { classroom := cl, type := mt, module := ms } :: c)

/-- Embedding of `parse_schedule` (buscacursos.py lines 51-66). The bs4 part
is abstracted: the input is `none` when the cell holds no nested `<table>`
(Python then implicitly returns `None`, the inner `none`), otherwise the list
of rows, each the list of stripped `<td>` texts. The outer `Option` is the
exception flow: `none` means the call raised. -/
def parse_schedule (tbl : Option (List (List String))) :
    Option (Option Schedule) :=
  match tbl with
  | none => some none
  | some rows =>
    (parse_schedule_rows rows).map (fun p => some { full := p.1, compact := p.2 })

/-- Embedding of `MISSING_TEACHERS_RE.match(raw_info)`: the regex
`Sin Profesores` under Python `re.match`, which anchors at the start only, so
it succeeds exactly when the text starts with the sentinel. -/
def matchesMissingTeachers (raw_info : String) : Bool :=
  pyStarts "Sin Profesores" raw_info

/-- Embedding of `NONPERSON_TEACHERS_RE.match(raw_info)`: the regex
`(Dirección Docente)|(Por Fijar)` under Python `re.match` (start-anchored). -/
def matchesNonpersonTeachers (raw_info : String) : Bool :=
  pyStarts "Dirección Docente" raw_info || pyStarts "Por Fijar" raw_info

/-- The loop body of `parse_teachers` (buscacursos.py lines 81-83):
`name_parts = teacher.split(" ")` and
`name_parts[-1] + " " + " ".join(name_parts[:-1])`. `split` never returns an
empty list, so the `[-1]` index cannot fail; its embedding takes `""` as the
(unreachable) default. -/
def reorder_name (teacher : String) : String :=
  let name_parts := pySplit " " teacher
  name_parts.getLastD "" ++ " " ++ pyJoin " " name_parts.dropLast

/-- Embedding of `parse_teachers` (buscacursos.py lines 73-85). The bs4 call
`row_value_tag.text.strip()` is abstracted to trimming the given cell text. -/
def parse_teachers (text : String) : List String :=
  let raw_info := pyStrip text
  if matchesMissingTeachers raw_info then []
  else if matchesNonpersonTeachers raw_info then [raw_info]
  else (pySplit ", " raw_info).map reorder_name

/-- Modelled from the spec: `clean_text` is imported from
`src/scrapers/utils.py`, which is not in the repository snapshot; §4.1 (Text
Normalizer) says it trims surrounding whitespace from raw cell text. -/
def clean_text (text : String) : String :=
  pyStrip text

/-- Embedding of the boolean column strategy
`lambda n: clean_text(n).upper() == "SI"` (buscacursos.py lines 91, 92, 94). -/
def si_token (text : String) : Bool :=
  pyUpper (clean_text text) == "SI"

/-- Embedding of Python `int(s)` on its common forms: surrounding whitespace
stripped, an optional sign followed by at least one decimal digit; anything
else raises `ValueError`, embedded as `none`. -/
def py_int (s : String) : Option Int :=
  let ds := (pyStrip s).toList
  match ds with
  | [] => none
  | '-' :: rest =>
    if rest ≠ [] ∧ rest.all Char.isDigit then
      some (-(Int.ofNat (rest.foldl (fun a c => a * 10 + (c.toNat - 48)) 0)))
    else none
  | '+' :: rest =>
    if rest ≠ [] ∧ rest.all Char.isDigit then
      some (Int.ofNat (rest.foldl (fun a c => a * 10 + (c.toNat - 48)) 0))
    else none
  | _ =>
    if ds.all Char.isDigit then
      some (Int.ofNat (ds.foldl (fun a c => a * 10 + (c.toNat - 48)) 0))
    else none

/-- Modelled from the spec: `tag_to_int_value` is imported from the absent
`src/scrapers/utils.py`; §4.2 says the integer coercer normalizes the text and
converts it to an integer, failing with a ParseError (a row-level failure) if
the normalized text is not an integer literal. -/
def tag_to_int_value (text : String) : Option Int :=
  py_int (clean_text text)

/-- A parsed cell value (the union of output types of the column strategies). -/
inductive Value where
  | str : String → Value
  | int : Int → Value
  | bool : Bool → Value
  | strList : List String → Value
  | sched : Option Schedule → Value
deriving Repr, DecidableEq

/-- The parsing functions that appear as values of `COLUMNS_STRATEGIES`
(buscacursos.py lines 88-107), as tagged variants. -/
inductive Strategy where
  | cleanText
  | boolSi
  | intVal
  | teachers
  | scheduleTable
deriving Repr, DecidableEq

/-- One `<td>` cell of a result row: its (stripped) text, and the rows of its
nested schedule table when one exists. -/
structure Cell where
  text : String
  table : Option (List (List String))
deriving Repr, DecidableEq

/-- Embedding of the `COLUMNS_STRATEGIES` dict (buscacursos.py lines 88-107)
in its insertion order; `none` stands for the Python `None` no-op entries. -/
def COLUMNS_STRATEGIES : List (String × Option Strategy) :=
  [("ncr", some .cleanText),
   ("code", some .cleanText),
   ("allows_withdraw", some .boolSi),
   ("is_in_english", some .boolSi),
   ("section", some .intVal),
   ("requires_special_approval", some .boolSi),
   ("fg_area", some .cleanText),
   ("format", some .cleanText),
   ("category", some .cleanText),
   ("name", some .cleanText),
   ("teachers", some .teachers),
   ("campus", some .cleanText),
   ("credits", some .intVal),
   ("total_vacancy", some .intVal),
   ("available_vacancy", some .intVal),
   ("reserved_vacancy", none),
   ("schedule", some .scheduleTable),
   ("add_to_calendar", none)]

/-- Applying one strategy to one cell; `none` is a raised coercion error. -/
def applyStrategy : Strategy → Cell → Option Value
  | .cleanText, cell => some (.str (clean_text cell.text))
  | .boolSi, cell => some (.bool (si_token cell.text))
  | .intVal, cell => (tag_to_int_value cell.text).map .int
  | .teachers, cell => some (.strList (parse_teachers cell.text))
  | .scheduleTable, cell => (parse_schedule cell.table).map .sched

/-- Modelled from the spec: `run_parse_strategy` is imported from the absent
`src/scrapers/utils.py`; §4.5 says the row must have exactly as many cells as
the strategy table has entries (a mismatch is a row-level structural failure),
entries mapped to `None` are skipped and contribute no key, and each other
cell is parsed by its entry's function, whose coercion failure is likewise a
row-level failure. -/
def run_parse_strategy (strategies : List (String × Option Strategy))
    (cells : List Cell) : Option (List (String × Value)) :=
  if cells.length = strategies.length then
    (strategies.zip cells).foldr
      (fun entry acc =>
        match acc with
        | none => none
        | some rest =>
          match entry.1.2 with
          | none => some rest
          | some strat =>
            match applyStrategy strat entry.2 with
            | none => none
            | some v => some ((entry.1.1, v) :: rest))
      (some [])
  else none

/-- Embedding of `parse_row` (buscacursos.py lines 110-115): the backward
sibling scan for the academic-unit heading is abstracted to its result, the
optional school text, merged with the dispatched column values. A `none`
result is the row's parse raising (cell-count mismatch or coercion failure). -/
def parse_row (school : Option String) (cells : List Cell) :
    Option (Option String × List (String × Value)) :=
  (run_parse_strategy COLUMNS_STRATEGIES cells).map (fun fields => (school, fields))

/-- Embedding of `get_courses_raw` (buscacursos.py lines 121-129) after the
HTTP fetch and row location: each located result row is its resolved school
plus its cell list. Modelled from the spec: `gather_routines` is imported from
the absent `src/scrapers/utils.py`; §4.7 and §9 say the per-row results are
collected preserving document order and a failed row is dropped from the
result, never aborting the batch. -/
def get_courses_raw (rows : List (Option String × List Cell)) :
    List (Option String × List (String × Value)) :=
  rows.filterMap (fun row => parse_row row.1 row.2)

/-- Embedding of the option-parsing step of `get_available_terms`
(buscacursos.py lines 147-148): `year, period = option.attrs["value"].split("-")`
then `int(year), int(period)`; a split that does not have exactly two pieces,
or a piece that is not an integer literal, raises `ValueError`. -/
def parse_term_value (value : String) : Option (Int × Int) :=
  match pySplit "-" value with
  | [year, period] =>
    match py_int year with
    | none => none
    | some y =>
      match py_int period with
      | none => none
      | some p => some (y, p)
  | _ => none

/-- Embedding of `get_available_terms` (buscacursos.py lines 137-149) after
the HTTP fetch: the input is the list of option values of the term selector
(absent selector = empty list). The Python loop appends pairs one by one and
has no exception handler, so the first malformed value aborts the whole call:
`none`. -/
def get_available_terms (optionValues : List String) :
    Option (List (Int × Int)) :=
  match optionValues with
  | [] => some []
  | v :: rest =>
    match parse_term_value v with
    | none => none
    | some p =>
      match get_available_terms rest with
      | none => none
      | some ps => some (p :: ps)

/-- Modelled from the spec's words (§4.4 step 3), for comparison with the
source's `reorder_name` in claim C7: split the entry on spaces, move the last
space-separated token to the front, and rejoin with a single space. -/
def spec_reorder (entry : String) : String :=
  let ps := pySplit " " entry
  pyJoin " " (ps.getLastD "" :: ps.dropLast)

theorem splitSeqAux_ne_nil (sep : List Char) (fuel : Nat) (l : List Char) :
    splitSeqAux sep fuel l ≠ [] := by
  match fuel, l with
  | _, [] => simp [splitSeqAux]
  | 0, c :: cs => simp [splitSeqAux]
  | fuel + 1, c :: cs =>
    rw [splitSeqAux]
    split
    · simp
    · split <;> simp

theorem pySplit_ne_nil (sep s : String) : pySplit sep s ≠ [] := by
  have h := splitSeqAux_ne_nil sep.toList s.toList.length s.toList
  simp only [pySplit, splitSeq, ne_eq, List.map_eq_nil_iff]
  exact h

theorem splitSeqAux_single_length (c : Char) (l : List Char) :
    (splitSeqAux [c] l.length l).length = l.count c + 1 := by
  induction l with
  | nil => simp [splitSeqAux]
  | cons a cs ih =>
    rw [List.length_cons, splitSeqAux]
    by_cases hca : c = a
    · subst hca
      have hcond : ([c] ≠ [] ∧ [c].isPrefixOf (c :: cs)) := by
        refine ⟨by simp, ?_⟩
        simp [List.isPrefixOf]
      rw [if_pos hcond]
      have hdrop : List.drop [c].length (c :: cs) = cs := by simp
      rw [hdrop, List.length_cons, ih, List.count_cons_self]
    · have hcond : ¬ ([c] ≠ [] ∧ [c].isPrefixOf (a :: cs)) := by
        simp [List.isPrefixOf, hca]
      rw [if_neg hcond]
      rcases hsplit : splitSeqAux [c] cs.length cs with _ | ⟨h, t⟩
      · exact absurd hsplit (splitSeqAux_ne_nil _ _ _)
      · have hlen := ih
        rw [hsplit] at hlen
        rw [List.count_cons_of_ne hca]
        simp only [List.length_cons] at hlen ⊢
        omega

theorem pySplit_single_length (c : Char) (s : String) :
    (pySplit (String.mk [c]) s).length = s.toList.count c + 1 := by
  have h := splitSeqAux_single_length c s.toList
  simp only [pySplit, splitSeq, List.length_map]
  have hl : (String.mk [c]).toList = [c] := rfl
  rw [hl, h]

theorem unpack_row_cells_eq_none (r : List String) (h : r.length < 3) :
    unpack_row_cells r = none := by
  match r with
  | [] => rfl
  | [a] => rfl
  | [a, b] => rfl
  | a :: b :: c :: t => simp only [List.length_cons] at h; omega

theorem parse_schedule_rows_abort (rows : List (List String))
    (r : List String) (hmem : r ∈ rows) (hnone : rowExpansion r = none) :
    parse_schedule_rows rows = none := by
  induction rows with
  | nil => cases hmem
  | cons row rest ih =>
    rw [parse_schedule_rows]
    rcases hu : unpack_row_cells row with _ | ⟨⟨ms, mt, cl⟩⟩
    · simp [hu]
    · rcases he : expand_schedule ms mt cl with _ | es
      · simp [hu, he]
      · have hmem2 : r ∈ rest := by
          rcases List.mem_cons.mp hmem with heq | h2
          · subst heq
            have : rowExpansion r = some es := by simp [rowExpansion, hu, he]
            rw [this] at hnone
            cases hnone
          · exact h2
        simp [hu, he, ih hmem2]

theorem get_available_terms_abort (optionValues : List String) (v : String)
    (hmem : v ∈ optionValues) (hbad : parse_term_value v = none) :
    get_available_terms optionValues = none := by
  induction optionValues with
  | nil => cases hmem
  | cons x xs ih =>
    rw [get_available_terms]
    rcases hx : parse_term_value x with _ | p
    · simp [hx]
    · have hmem2 : v ∈ xs := by
        rcases List.mem_cons.mp hmem with heq | h2
        · subst heq
          rw [hbad] at hx
          cases hx
        · exact h2
      simp [hx, ih hmem2]

theorem pyJoin_cons_of_ne_nil (sep x : String) (l : List String)
    (h : l ≠ []) : pyJoin sep (x :: l) = x ++ sep ++ pyJoin sep l := by
  match l with
  | [] => exact absurd rfl h
  | y :: t => rfl

theorem expand_schedule_eq_none_iff (ms mt cl : String) :
    expand_schedule ms mt cl = none ↔ (pySplit ":" ms).length ≠ 2 := by
  rcases e : pySplit ":" ms with _ | ⟨a, _ | ⟨b, _ | ⟨x, t⟩⟩⟩ <;>
    simp only [expand_schedule, e]
  · simp
  · simp
  · constructor
    · intro h
      split_ifs at h
    · intro h
      simp at h
  · simp only [List.length_cons, ne_eq]
    constructor
    · intro _
      omega
    · intro _
      trivial

theorem expand_schedule_classroom (ms mt cl : String) (sessions : List Session)
    (h : expand_schedule ms mt cl = some sessions) :
    ∀ s ∈ sessions,
      s.classroom = if matchesMissingClassroom cl then none else some cl := by
  rcases e : pySplit ":" ms with _ | ⟨a, _ | ⟨b, _ | ⟨x, t⟩⟩⟩ <;>
    simp only [expand_schedule, e] at h
  · cases h
  · cases h
  · split_ifs at h with hempty hclass
    · obtain rfl : ([] : List Session) = sessions := Option.some.inj h
      intro s hs
      cases hs
    · obtain rfl := Option.some.inj h
      intro s hs
      simp only [List.mem_flatMap, List.mem_map] at hs
      obtain ⟨d, hd, ht, hht, rfl⟩ := hs
      rw [if_pos hclass]
    · obtain rfl := Option.some.inj h
      intro s hs
      simp only [List.mem_flatMap, List.mem_map] at hs
      obtain ⟨d, hd, ht, hht, rfl⟩ := hs
      rw [if_neg hclass]
  · cases h

theorem parse_schedule_rows_spec (rows : List (List String))
    (f : List Session) (c : List CompactEntry)
    (h : parse_schedule_rows rows = some (f, c)) :
    c.length = rows.length ∧
    (f = [] ↔ ∀ r ∈ rows, rowExpansion r = some []) ∧
    ((∀ r ∈ rows, rowExpansion r ≠ some []) → c.length ≤ f.length) := by
  induction rows generalizing f c with
  | nil =>
    rw [parse_schedule_rows] at h
    simp only [Option.some.injEq, Prod.mk.injEq] at h
    obtain ⟨rfl, rfl⟩ := h
    simp
  | cons row rest ih =>
    rw [parse_schedule_rows] at h
    rcases hu : unpack_row_cells row with _ | ⟨⟨ms, mt, cl⟩⟩ <;>
      simp only [hu] at h
    · cases h
    rcases he : expand_schedule ms mt cl with _ | es <;>
      simp only [he] at h
    · cases h
    rcases hr : parse_schedule_rows rest with _ | ⟨⟨f2, c2⟩⟩ <;>
      simp only [hr] at h
    · cases h
    have hrowExp : rowExpansion row = some es := by
      simp [rowExpansion, hu, he]
    simp only [Option.some.injEq, Prod.mk.injEq] at h
    obtain ⟨rfl, rfl⟩ := h
    obtain ⟨ih1, ih2, ih3⟩ := ih f2 c2 hr
    refine ⟨by simp [ih1], ?_, ?_⟩
    · rw [List.append_eq_nil, List.forall_mem_cons, hrowExp, ih2]
      constructor
      · rintro ⟨rfl, h2⟩
        exact ⟨rfl, h2⟩
      · rintro ⟨h1, h2⟩
        exact ⟨Option.some.inj h1, h2⟩
    · intro hne
      rw [List.forall_mem_cons] at hne
      have hes : es ≠ [] := by
        intro hnil
        subst hnil
        exact hne.1 hrowExp
      have h1 : 1 ≤ es.length := List.length_pos.mpr hes
      have := ih3 hne.2
      simp only [List.length_cons, List.length_append]
      omega

/-- C1 counterexample: for module-spec "LM:1-2" the code's expansion has
exactly one session, with module "LM1-2", not the four sessions
(L,1),(L,2),(M,1),(M,2) the claim asserts for this input: the code splits the
day part on "-" and the hour part on ",", so "LM" is a single day token and
"1-2" a single hour token. -/
theorem C1_counterexample :
    expand_schedule "LM:1-2" "T" "Sala" =
      some [{ classroom := some "Sala", type := "T", module := "LM1-2" }] ∧
    (expand_schedule "LM:1-2" "T" "Sala").map List.length ≠ some 4 := by
  decide

/-- C1 (amended): a module-spec splitting on ":" into a non-empty day part
and a non-empty hour part yields one Session per (day token, hour token) pair
of the Cartesian product — day tokens from splitting the day part on "-",
hour tokens from splitting the hour part on "," — with `module` the
concatenation of the two tokens; the module-spec that yields the four
sessions (L,1),(L,2),(M,1),(M,2) is "L-M:1,2", not "LM:1-2". -/
theorem C1_cartesian_product (ms mt cl d hr : String)
    (hsplit : pySplit ":" ms = [d, hr]) (hd : d ≠ "") (hh : hr ≠ "") :
    expand_schedule ms mt cl =
      some ((pySplit "-" d).flatMap (fun dt =>
        (pySplit "," hr).map (fun ht =>
          { classroom := if matchesMissingClassroom cl then none else some cl,
            type := mt, module := dt ++ ht }))) ∧
    expand_schedule "L-M:1,2" "T" "Sala" =
      some [{ classroom := some "Sala", type := "T", module := "L1" },
            { classroom := some "Sala", type := "T", module := "L2" },
            { classroom := some "Sala", type := "T", module := "M1" },
            { classroom := some "Sala", type := "T", module := "M2" }] := by
  constructor
  · simp only [expand_schedule, hsplit]
    rw [if_neg (by simp [hd, hh])]
  · decide

/-- C1 witness: the amended theorem applied at the module-spec "L-M:1,2". -/
theorem C1_cartesian_product_witness :
    expand_schedule "L-M:1,2" "T" "Sala" =
      some ((pySplit "-" "L-M").flatMap (fun dt =>
        (pySplit "," "1,2").map (fun ht =>
          { classroom := if matchesMissingClassroom "Sala" then none
                         else some "Sala",
            type := "T", module := dt ++ ht }))) ∧
    expand_schedule "L-M:1,2" "T" "Sala" =
      some [{ classroom := some "Sala", type := "T", module := "L1" },
            { classroom := some "Sala", type := "T", module := "L2" },
            { classroom := some "Sala", type := "T", module := "M1" },
            { classroom := some "Sala", type := "T", module := "M2" }] :=
  C1_cartesian_product "L-M:1,2" "T" "Sala" "L-M" "1,2" (by decide) (by decide)
    (by decide)

/-- C2: a failed row parse (cell-count mismatch or coercion failure) removes
only that row from the batch result and never aborts the batch; five
well-formed 18-cell rows plus one structurally broken 17-cell row yield
exactly five records. -/
theorem C2_row_failure_tolerance (pre suf : List (Option String × List Cell))
    (bad : Option String × List Cell) (hbad : parse_row bad.1 bad.2 = none) :
    get_courses_raw (pre ++ bad :: suf) =
      get_courses_raw pre ++ get_courses_raw suf ∧
    (get_courses_raw
        (List.replicate 5 ((none : Option String),
            List.replicate 18 (Cell.mk "1" none)) ++
          [((none : Option String),
            List.replicate 17 (Cell.mk "1" none))])).length = 5 := by
  constructor
  · simp only [get_courses_raw, List.filterMap_append, List.filterMap_cons,
      hbad]
  · decide

/-- C2 witness: the theorem applied to an empty batch around a row with no
cells (whose parse fails the 18-entry cell-count check). -/
theorem C2_row_failure_tolerance_witness :
    get_courses_raw ([] ++ ((none : Option String), ([] : List Cell)) :: []) =
      get_courses_raw [] ++ get_courses_raw [] ∧
    (get_courses_raw
        (List.replicate 5 ((none : Option String),
            List.replicate 18 (Cell.mk "1" none)) ++
          [((none : Option String),
            List.replicate 17 (Cell.mk "1" none))])).length = 5 :=
  C2_row_failure_tolerance [] [] ((none : Option String), ([] : List Cell))
    (by decide)

/-- C3 counterexample: a module row with fewer than three cells is NOT
skipped: the one-cell row ["L:1"] makes the whole schedule parse raise
(result `none`), instead of continuing with the remaining well-formed row,
whose lone parse is shown alongside. -/
theorem C3_counterexample :
    parse_schedule (some [["L:1"], ["W:2", "CLAS", "Sala"]]) = none ∧
    parse_schedule (some [["W:2", "CLAS", "Sala"]]) =
      some (some
        { full := [{ classroom := some "Sala", type := "CLAS", module := "W2" }],
          compact := [{ classroom := "Sala", type := "CLAS", module := "W:2" }] }) := by
  decide

/-- C3 (amended): a module row with fewer than three cells aborts the whole
schedule parse — the three-way unpacking raises `ValueError` and
`parse_schedule` has no handler — so the malformed sub-row takes every other
row of the schedule down with it (and with them that course row's parse). -/
theorem C3_short_row_aborts (rows : List (List String)) (r : List String)
    (hmem : r ∈ rows) (hlen : r.length < 3) :
    parse_schedule (some rows) = none := by
  have h1 : rowExpansion r = none := by
    rw [rowExpansion, unpack_row_cells_eq_none r hlen]
  simp only [parse_schedule, parse_schedule_rows_abort rows r hmem h1,
    Option.map_none']

/-- C3 witness: the amended theorem applied to a schedule whose only row has
one cell. -/
theorem C3_short_row_aborts_witness :
    parse_schedule (some [["L:1"]]) = none :=
  C3_short_row_aborts [["L:1"]] ["L:1"] (by decide) (by decide)

/-- C4 counterexample: the invariant "compact length ≤ full length" is false:
the one-row timetable [["L:", "CLAS", "Sala"]] parses to a Schedule with one
compact entry and zero full sessions (the claim's own "L:" example
contradicts its stated invariant). -/
theorem C4_counterexample :
    ¬ (∀ (tbl : Option (List (List String))) (sch : Schedule),
        parse_schedule tbl = some (some sch) →
        sch.compact.length ≤ sch.full.length) := by
  intro hall
  have h := hall (some [["L:", "CLAS", "Sala"]])
    { full := [],
      compact := [{ classroom := "Sala", type := "CLAS", module := "L:" }] }
    (by decide)
  exact absurd h (by decide)

/-- C4 (amended): for every successfully parsed timetable, `compact` has
exactly one entry per row; `full` is empty iff every row's expansion is empty
(an empty day part or hour part); and `compact` length ≤ `full` length holds
under the additional hypothesis that no row has an empty expansion — not in
general, since a row like "L:" contributes 1 compact entry and 0 sessions. -/
theorem C4_schedule_invariants (rows : List (List String)) (sch : Schedule)
    (h : parse_schedule (some rows) = some (some sch)) :
    sch.compact.length = rows.length ∧
    (sch.full = [] ↔ ∀ r ∈ rows, rowExpansion r = some []) ∧
    ((∀ r ∈ rows, rowExpansion r ≠ some []) →
      sch.compact.length ≤ sch.full.length) ∧
    parse_schedule (some [["L:", "CLAS", "Sala"]]) =
      some (some
        { full := [],
          compact := [{ classroom := "Sala", type := "CLAS", module := "L:" }] }) := by
  have hp : parse_schedule_rows rows = some (sch.full, sch.compact) := by
    rcases hr : parse_schedule_rows rows with _ | ⟨⟨f2, c2⟩⟩ <;>
      simp only [parse_schedule, hr, Option.map_none', Option.map_some'] at h
    · cases h
    · obtain rfl := Option.some.inj (Option.some.inj h)
      rfl
  obtain ⟨s1, s2, s3⟩ := parse_schedule_rows_spec rows sch.full sch.compact hp
  exact ⟨s1, s2, s3, by decide⟩

/-- C4 witness: the amended theorem applied to the one-row timetable
[["L:1,2", "CLAS", "Sala"]]. -/
theorem C4_schedule_invariants_witness :
    ([{ classroom := "Sala", type := "CLAS", module := "L:1,2" }]
        : List CompactEntry).length = [["L:1,2", "CLAS", "Sala"]].length ∧
    (([{ classroom := some "Sala", type := "CLAS", module := "L1" },
        { classroom := some "Sala", type := "CLAS", module := "L2" }]
          : List Session) = [] ↔
      ∀ r ∈ [["L:1,2", "CLAS", "Sala"]], rowExpansion r = some []) ∧
    ((∀ r ∈ [["L:1,2", "CLAS", "Sala"]], rowExpansion r ≠ some []) →
      ([{ classroom := "Sala", type := "CLAS", module := "L:1,2" }]
          : List CompactEntry).length ≤
        ([{ classroom := some "Sala", type := "CLAS", module := "L1" },
           { classroom := some "Sala", type := "CLAS", module := "L2" }]
            : List Session).length) ∧
    parse_schedule (some [["L:", "CLAS", "Sala"]]) =
      some (some
        { full := [],
          compact := [{ classroom := "Sala", type := "CLAS", module := "L:" }] }) :=
  C4_schedule_invariants [["L:1,2", "CLAS", "Sala"]]
    { full := [{ classroom := some "Sala", type := "CLAS", module := "L1" },
               { classroom := some "Sala", type := "CLAS", module := "L2" }],
      compact := [{ classroom := "Sala", type := "CLAS", module := "L:1,2" }] }
    (by decide)

/-- C5 counterexample: the option value "garbage" is not skipped; it makes
term discovery raise, so the discovery yields an error, not the two parsed
terms. -/
theorem C5_counterexample :
    get_available_terms ["2024-1", "2024-2", "garbage"] = none ∧
    get_available_terms ["2024-1", "2024-2", "garbage"] ≠
      some [(2024, 1), (2024, 2)] := by
  decide

/-- C5 (amended): an option value that does not split on "-" into exactly
two integer literals is not skipped: the two-way unpacking (or `int()`)
raises, aborting the whole term discovery; a selector whose option values all
parse yields the (year, period) pairs in order. -/
theorem C5_malformed_option_aborts (optionValues : List String) (v : String)
    (hmem : v ∈ optionValues) (hbad : parse_term_value v = none) :
    get_available_terms optionValues = none ∧
    get_available_terms ["2024-1", "2024-2"] = some [(2024, 1), (2024, 2)] :=
  ⟨get_available_terms_abort optionValues v hmem hbad, by decide⟩

/-- C5 witness: the amended theorem applied to a selector whose only option
is "garbage". -/
theorem C5_malformed_option_aborts_witness :
    get_available_terms ["garbage"] = none ∧
    get_available_terms ["2024-1", "2024-2"] = some [(2024, 1), (2024, 2)] :=
  C5_malformed_option_aborts ["garbage"] "garbage" (by decide) (by decide)

/-- C6 counterexample: the "no teachers" sentinel test is a start-anchored
prefix match, not an exact-equality test: the input
"Sin Profesores asignados" is not exactly "Sin Profesores", yet the parser
returns the empty list for it. -/
theorem C6_counterexample :
    parse_teachers "Sin Profesores asignados" = [] ∧
    "Sin Profesores asignados" ≠ "Sin Profesores" := by
  decide

/-- C6 (amended): the parser returns [] exactly when the stripped text
STARTS WITH "Sin Profesores" (Python re.match anchors at the start only, not
at both ends), and returns the raw stripped text as a one-element list when
the text does not start with "Sin Profesores" but starts with
"Dirección Docente" or "Por Fijar"; the claim's concrete examples do hold. -/
theorem C6_sentinel_prefixes (text : String) :
    (parse_teachers text = [] ↔ matchesMissingTeachers (pyStrip text) = true) ∧
    (matchesMissingTeachers (pyStrip text) = false →
      matchesNonpersonTeachers (pyStrip text) = true →
      parse_teachers text = [pyStrip text]) ∧
    parse_teachers "Sin Profesores" = [] ∧
    parse_teachers "Dirección Docente" = ["Dirección Docente"] ∧
    parse_teachers "Por Fijar" = ["Por Fijar"] := by
  refine ⟨?_, ?_, by decide, by decide, by decide⟩
  · simp only [parse_teachers]
    by_cases h1 : matchesMissingTeachers (pyStrip text) = true
    · simp [h1]
    · rw [if_neg h1]
      constructor
      · intro hcontra
        by_cases h2 : matchesNonpersonTeachers (pyStrip text) = true
        · rw [if_pos h2] at hcontra
          cases hcontra
        · rw [if_neg h2] at hcontra
          exact absurd (List.map_eq_nil_iff.mp hcontra) (pySplit_ne_nil _ _)
      · intro htrue
        exact absurd htrue h1
  · intro h1 h2
    simp only [parse_teachers]
    rw [if_neg (by simp [h1]), if_pos h2]

/-- C6 witness: the amended theorem applied at the text "Por Fijar". -/
theorem C6_sentinel_prefixes_witness :
    (parse_teachers "Por Fijar" = [] ↔
      matchesMissingTeachers (pyStrip "Por Fijar") = true) ∧
    (matchesMissingTeachers (pyStrip "Por Fijar") = false →
      matchesNonpersonTeachers (pyStrip "Por Fijar") = true →
      parse_teachers "Por Fijar" = [pyStrip "Por Fijar"]) ∧
    parse_teachers "Sin Profesores" = [] ∧
    parse_teachers "Dirección Docente" = ["Dirección Docente"] ∧
    parse_teachers "Por Fijar" = ["Por Fijar"] :=
  C6_sentinel_prefixes "Por Fijar"

/-- C7 counterexample: for the one-token (non-sentinel) entry "Juan" the
code produces "Juan " with a trailing space — parts[-1] + " " + "" — while
the claimed rule (move the last token to the front and rejoin with single
spaces) yields "Juan"; so the claimed description is not exact for every
entry. -/
theorem C7_counterexample :
    parse_teachers "Juan" = ["Juan "] ∧
    (pySplit ", " "Juan").map spec_reorder = ["Juan"] ∧
    parse_teachers "Juan" ≠ (pySplit ", " "Juan").map spec_reorder := by
  decide

/-- C7 (amended): for non-sentinel text the parser splits on ", " and maps
each entry to lastToken ++ " " ++ (remaining tokens joined by single spaces),
preserving entry order; this agrees with "move the last space-separated token
to the front and rejoin with single spaces" for every entry of at least two
tokens (a one-token entry instead gains a trailing space); the claim's
two-teacher example holds. -/
theorem C7_name_reorder (text : String)
    (h1 : matchesMissingTeachers (pyStrip text) = false)
    (h2 : matchesNonpersonTeachers (pyStrip text) = false) :
    parse_teachers text = (pySplit ", " (pyStrip text)).map reorder_name ∧
    (∀ entry : String, 2 ≤ (pySplit " " entry).length →
      reorder_name entry = spec_reorder entry) ∧
    parse_teachers "Juan Pérez, Ana María López" =
      ["Pérez Juan", "López Ana María"] := by
  refine ⟨?_, ?_, by decide⟩
  · simp only [parse_teachers]
    rw [if_neg (by simp [h1]), if_neg (by simp [h2])]
  · intro entry hlen
    rcases hsp : pySplit " " entry with _ | ⟨p, _ | ⟨q, t⟩⟩
    · exact absurd hsp (pySplit_ne_nil _ _)
    · rw [hsp] at hlen
      simp at hlen
    · simp only [reorder_name, spec_reorder, hsp]
      have hne : (p :: q :: t).dropLast ≠ [] := by
        have hd : (p :: q :: t).dropLast.length = t.length + 1 := by
          simp [List.length_dropLast]
        intro hnil
        rw [hnil] at hd
        cases hd
      rw [pyJoin_cons_of_ne_nil _ _ _ hne]

/-- C7 witness: the amended theorem applied at the text "Juan Pérez". -/
theorem C7_name_reorder_witness :
    parse_teachers "Juan Pérez" =
      (pySplit ", " (pyStrip "Juan Pérez")).map reorder_name ∧
    (∀ entry : String, 2 ≤ (pySplit " " entry).length →
      reorder_name entry = spec_reorder entry) ∧
    parse_teachers "Juan Pérez, Ana María López" =
      ["Pérez Juan", "López Ana María"] :=
  C7_name_reorder "Juan Pérez" (by decide) (by decide)

/-- C8: the boolean column coercer returns true iff the stripped, upper-cased
cell text equals "SI"; it is a total Lean function (it never raises), and the
claim's concrete examples hold. -/
theorem C8_bool_coercion (text : String) :
    (si_token text = true ↔ pyUpper (clean_text text) = "SI") ∧
    si_token "SI" = true ∧ si_token "si" = true ∧ si_token "NO" = false ∧
    si_token "" = false ∧ si_token "N/A" = false := by
  refine ⟨?_, by decide, by decide, by decide, by decide, by decide⟩
  simp [si_token]

/-- C8 witness: the coercion theorem applied at the text " si ". -/
theorem C8_bool_coercion_witness :
    (si_token " si " = true ↔ pyUpper (clean_text " si ") = "SI") ∧
    si_token "SI" = true ∧ si_token "si" = true ∧ si_token "NO" = false ∧
    si_token "" = false ∧ si_token "N/A" = false :=
  C8_bool_coercion " si "

/-- C9: in every expanded session, `classroom` is absent exactly when the
source classroom text matches the to-be-assigned sentinel pattern
(starts with "Por Asignar", optionally after "("), and otherwise equals the
raw classroom text; the concrete "Por Asignar" row yields absent classrooms
throughout. -/
theorem C9_classroom_sentinel (ms mt cl : String) (sessions : List Session)
    (h : expand_schedule ms mt cl = some sessions) :
    (∀ s ∈ sessions,
      (s.classroom = none ↔ matchesMissingClassroom cl = true) ∧
      (matchesMissingClassroom cl = false → s.classroom = some cl)) ∧
    expand_schedule "L:1,2" "T" "Por Asignar" =
      some [{ classroom := none, type := "T", module := "L1" },
            { classroom := none, type := "T", module := "L2" }] := by
  refine ⟨?_, by decide⟩
  intro s hs
  have hcl := expand_schedule_classroom ms mt cl sessions h s hs
  by_cases hm : matchesMissingClassroom cl = true
  · rw [if_pos hm] at hcl
    refine ⟨⟨fun _ => hm, fun _ => hcl⟩, ?_⟩
    intro hfalse
    rw [hm] at hfalse
    cases hfalse
  · rw [if_neg hm] at hcl
    constructor
    · constructor
      · intro hnone
        rw [hcl] at hnone
        cases hnone
      · intro htrue
        exact absurd htrue hm
    · intro _
      exact hcl

/-- C9 witness: the theorem applied to the expansion of "L:1" with classroom
"Por Asignar". -/
theorem C9_classroom_sentinel_witness :
    (∀ s ∈ [({ classroom := none, type := "T", module := "L1" } : Session)],
      (s.classroom = none ↔ matchesMissingClassroom "Por Asignar" = true) ∧
      (matchesMissingClassroom "Por Asignar" = false →
        s.classroom = some "Por Asignar")) ∧
    expand_schedule "L:1,2" "T" "Por Asignar" =
      some [{ classroom := none, type := "T", module := "L1" },
            { classroom := none, type := "T", module := "L2" }] :=
  C9_classroom_sentinel "L:1" "T" "Por Asignar"
    [{ classroom := none, type := "T", module := "L1" }] (by decide)

/-- C10: `expand_schedule` raises (returns `none`) for every module-spec
whose number of ":" occurrences differs from one — the two-way unpacking of
the split fails — and such a row aborts the whole schedule parse rather than
yielding an empty expansion; conversely every spec with exactly one ":"
expands without raising. -/
theorem C10_colon_unpacking (ms mt cl : String) (pre suf : List (List String))
    (hcount : ms.toList.count ':' ≠ 1) :
    expand_schedule ms mt cl = none ∧
    parse_schedule (some (pre ++ [ms, mt, cl] :: suf)) = none ∧
    ∀ ms2 mt2 cl2 : String, ms2.toList.count ':' = 1 →
      (expand_schedule ms2 mt2 cl2).isSome = true := by
  have hmk : String.mk [':'] = ":" := rfl
  have hlen := pySplit_single_length ':' ms
  rw [hmk] at hlen
  have hnone : expand_schedule ms mt cl = none := by
    rw [expand_schedule_eq_none_iff]
    omega
  refine ⟨hnone, ?_, ?_⟩
  · have hrow : rowExpansion [ms, mt, cl] = none := by
      simp [rowExpansion, unpack_row_cells, hnone]
    have habort := parse_schedule_rows_abort (pre ++ [ms, mt, cl] :: suf)
      [ms, mt, cl] (List.mem_append_right pre (List.mem_cons_self _ _)) hrow
    simp only [parse_schedule, habort, Option.map_none']
  · intro ms2 mt2 cl2 hc1
    have hlen2 := pySplit_single_length ':' ms2
    rw [hmk, hc1] at hlen2
    rcases e : pySplit ":" ms2 with _ | ⟨d, _ | ⟨hr, _ | ⟨z, t⟩⟩⟩ <;>
      rw [e] at hlen2
    · simp at hlen2
    · simp at hlen2
    · simp only [expand_schedule, e]
      split_ifs <;> rfl
    · simp only [List.length_cons] at hlen2
      omega

/-- C10 witness: the theorem applied to the delimiter-free spec "LM" inside a
one-row schedule. -/
theorem C10_colon_unpacking_witness :
    expand_schedule "LM" "T" "Sala" = none ∧
    parse_schedule (some ([] ++ ["LM", "T", "Sala"] :: [])) = none ∧
    ∀ ms2 mt2 cl2 : String, ms2.toList.count ':' = 1 →
      (expand_schedule ms2 mt2 cl2).isSome = true :=
  C10_colon_unpacking "LM" "T" "Sala" [] [] (by decide)

end BuscaCursos
